import Mathlib

/-!
Verification development for the keycloak-gatekeeper session credential
transport and renewal subsystem.

The definitions shallowly embed the Go sources:
  cookies.go     - cookie attribute policy, chunk budget calculator,
                   chunked cookie codec, divided-cookie clearing
  forwarding.go  - identity extraction and the forwarding credential
                   renewal loop
  errors.go      - the typed error values

Go byte strings are modelled as lists (the codec logic is content
agnostic), Go time instants and durations as integers, and Go ints as
Lean integers where signs matter.
-/

set_option linter.unusedVariables false

/-! ## Cookie attribute policy (cookies.go, makeCookieDropper) -/

/-- SameSite cookie config options, from the constant block of cookies.go. -/
def SameSiteStrict : String := "Strict"

/-- SameSite Lax configuration string. -/
def SameSiteLax : String := "Lax"

/-- SameSite None configuration string. -/
def SameSiteNone : String := "None"

/-- The slice of the proxy configuration consumed by the cookie layer. -/
structure Config where
  cookieDomain : String
  httpOnlyCookie : Bool
  secureCookie : Bool
  sameSiteCookie : String
  enableSessionCookies : Bool
deriving DecidableEq, Repr

/-- The value of the SameSite field of a Go http.Cookie: the zero value
serializes no SameSite attribute at all, the three mode values serialize
the corresponding attribute. -/
inductive SameSite where
  | unset
  | strictMode
  | laxMode
  | noneMode
deriving DecidableEq, Repr

/-- The fields of a Go http.Cookie that makeCookieDropper sets.  An absent
expires field (none) means the Expires attribute is omitted. -/
structure Cookie where
  name : String
  value : String
  path : String
  domain : String
  httpOnly : Bool
  secure : Bool
  sameSite : SameSite
  expires : Option Int
deriving DecidableEq, Repr

/-- Go strings.Split(host, ":")[0]: the prefix of the host before the first
colon (the whole host when it carries no port). -/
def hostWithoutPort (host : String) : String :=
  String.mk (host.data.takeWhile (fun c => c ≠ ':'))

/-- Shallow embedding of makeCookieDropper from cookies.go.  The Go code
precomputes a base cookie from the configuration and then switches over
(cookieDomain empty?, session cookies enabled?); the four closures differ
exactly in the domain used and in the guard deciding whether an Expires
attribute is emitted.  The Go switch statement's default branch is
unreachable because the four cases are exhaustive.  Note that the SameSite
switch in the source handles only the Strict and Lax configuration strings;
any other configured value (including "None") leaves the field at its zero
value, so no SameSite attribute is emitted for it. -/
def cookieDropper (cfg : Config) (now : Int) (host name value : String)
    (duration : Int) : Cookie :=
  let base : Cookie :=
    { name := name
      value := value
      path := "/"
      domain := cfg.cookieDomain
      httpOnly := cfg.httpOnlyCookie
      secure := cfg.secureCookie
      sameSite :=
        if cfg.sameSiteCookie = SameSiteStrict then SameSite.strictMode
        else if cfg.sameSiteCookie = SameSiteLax then SameSite.laxMode
        else SameSite.unset
      expires := none }
  if cfg.cookieDomain = "" then
    let c := { base with domain := hostWithoutPort host }
    if cfg.enableSessionCookies then
      if duration < 0 then { c with expires := some (now + duration) } else c
    else
      if duration ≠ 0 then { c with expires := some (now + duration) } else c
  else
    if cfg.enableSessionCookies then
      if duration < 0 then { base with expires := some (now + duration) } else base
    else
      if duration ≠ 0 then { base with expires := some (now + duration) } else base

/-! ## Chunk budget calculator (cookies.go, makeCookieChunker) -/

/-- Conservative margin for cases such as safari, from cookies.go. -/
def cookieMargin : Int := 12 + ("set-cookie: ".length : Int) + 3

/-- The 4096-byte ceiling minus the margin, from cookies.go. -/
def baseCookieChunkLength : Int := 4096 - cookieMargin

/-- Shallow embedding of makeCookieChunker from cookies.go: the maximum
payload bytes usable in one cookie for a given host and cookie name.  The
Go code subtracts, from the base budget, the byte cost of every attribute
the configuration will emit, then the domain cost (fixed, or host derived
at request time) and the cookie name length. -/
def cookieChunker (cfg : Config) (host cookieName : String) : Int :=
  let m : Int := baseCookieChunkLength - ("; Path=/".length : Int)
  let m : Int := if cfg.httpOnlyCookie then m - ("HttpOnly; ".length : Int) else m
  let m : Int :=
    if !cfg.enableSessionCookies then
      m - ("Expires=Mon, 02 Jan 2006 03:04:05 MST; ".length : Int)
    else m
  let m : Int :=
    if cfg.sameSiteCookie ≠ "" then
      m - (("SameSite=" ++ cfg.sameSiteCookie ++ "; ").length : Int)
    else m
  let m : Int := if cfg.secureCookie then m - ("Secure".length : Int) else m
  if cfg.cookieDomain ≠ "" then
    m - ("Domain=; ".length : Int) - (cfg.cookieDomain.length : Int)
      - (cookieName.length : Int)
  else
    m - (cookieName.length : Int) - ((hostWithoutPort host).length : Int)

/-- The configuration of the chunk budget determinism example. -/
def budgetExampleConfig : Config :=
  { cookieDomain := ""
    httpOnlyCookie := true
    secureCookie := true
    sameSiteCookie := "Lax"
    enableSessionCookies := true }

/-- C5: with cookie domain empty, session cookies enabled, HTTP-only and
secure set, same-site Lax, cookie name kc-access and request host
example.com:8443, the computed chunk budget is exactly 4011 bytes. -/
theorem chunk_budget_kc_access_4011 :
    cookieChunker budgetExampleConfig "example.com:8443" "kc-access" = 4011 := by
  decide

/-- C6: for every configuration (domain fixed or empty, session mode on or
off) and every lifetime: the emitted cookie's domain is the configured
fixed domain when one is configured and otherwise the request host
stripped of its port; the expiry attribute is present exactly when the
lifetime is negative (session mode) respectively non-zero (non-session
mode); a present expiry always equals now + lifetime, is strictly in the
past for a negative lifetime, is omitted for a zero lifetime, and for a
positive lifetime in non-session mode equals now + lifetime. -/
theorem cookie_attribute_matrix (cfg : Config) (now : Int)
    (host name value : String) (duration : Int) :
    ((cookieDropper cfg now host name value duration).domain
        = if cfg.cookieDomain = "" then hostWithoutPort host else cfg.cookieDomain)
  ∧ ((cookieDropper cfg now host name value duration).expires.isSome
        = if cfg.enableSessionCookies then decide (duration < 0)
          else decide (duration ≠ 0))
  ∧ (∀ e, (cookieDropper cfg now host name value duration).expires = some e →
        e = now + duration ∧ (duration < 0 → e < now))
  ∧ (duration = 0 → (cookieDropper cfg now host name value duration).expires = none)
  ∧ (duration < 0 →
        (cookieDropper cfg now host name value duration).expires = some (now + duration))
  ∧ (¬cfg.enableSessionCookies → 0 < duration →
        (cookieDropper cfg now host name value duration).expires = some (now + duration)) := by
  unfold cookieDropper
  by_cases hd : cfg.cookieDomain = "" <;>
    by_cases hs : cfg.enableSessionCookies <;>
      simp_all <;> split_ifs <;> simp_all

/-- Concrete configuration used to exercise the attribute matrix. -/
def matrixWitnessConfig : Config :=
  { cookieDomain := ""
    httpOnlyCookie := true
    secureCookie := true
    sameSiteCookie := "Lax"
    enableSessionCookies := true }

/-- Witness for C6: at a concrete configuration, host and negative
lifetime, the emitted cookie carries an already-past expiry. -/
theorem cookie_attribute_matrix_witness :
    (cookieDropper matrixWitnessConfig 100 "example.com:8443" "kc-access" "v" (-5)).expires
      = some 95 :=
  (cookie_attribute_matrix matrixWitnessConfig 100 "example.com:8443" "kc-access" "v"
    (-5)).2.2.2.2.1 (by decide)

/-- C7 (amended): a configured Strict or Lax same-site mode is carried on
every emitted cookie; a configured None mode is not mapped by the source's
switch statement, so the cookie carries no SameSite attribute at all. -/
theorem samesite_configured_modes (cfg : Config) (now : Int)
    (host name value : String) (duration : Int) :
    (cfg.sameSiteCookie = SameSiteStrict →
        (cookieDropper cfg now host name value duration).sameSite = SameSite.strictMode)
  ∧ (cfg.sameSiteCookie = SameSiteLax →
        (cookieDropper cfg now host name value duration).sameSite = SameSite.laxMode)
  ∧ (cfg.sameSiteCookie = SameSiteNone →
        (cookieDropper cfg now host name value duration).sameSite = SameSite.unset) := by
  unfold cookieDropper
  refine ⟨fun h => ?_, fun h => ?_, fun h => ?_⟩ <;>
    by_cases hd : cfg.cookieDomain = "" <;>
      by_cases hs : cfg.enableSessionCookies <;>
        simp_all [SameSiteStrict, SameSiteLax, SameSiteNone] <;>
          split <;> rfl

/-- Configuration with the same-site mode set to None. -/
def sameSiteNoneConfig : Config :=
  { cookieDomain := ""
    httpOnlyCookie := true
    secureCookie := true
    sameSiteCookie := "None"
    enableSessionCookies := true }

/-- Counterexample for C7 as stated: with the same-site mode configured to
None, the emitted cookie carries no SameSite attribute (the zero value)
rather than the None mode. -/
theorem samesite_none_counterexample :
    (cookieDropper sameSiteNoneConfig 0 "example.com" "kc-access" "v" 0).sameSite
        = SameSite.unset
  ∧ SameSite.unset ≠ SameSite.noneMode := by
  decide

/-- Witness for C7 (amended): a configured Strict mode is carried on the
emitted cookie. -/
theorem samesite_configured_modes_witness :
    (cookieDropper
        { cookieDomain := ""
          httpOnlyCookie := true
          secureCookie := true
          sameSiteCookie := "Strict"
          enableSessionCookies := true } 0 "example.com" "kc-access" "v" 0).sameSite
      = SameSite.strictMode :=
  (samesite_configured_modes _ 0 "example.com" "kc-access" "v" 0).1 (by decide)

/-! ## Chunked cookie codec (cookies.go, dropCookieWithChunks)

The Go loop is
  for i := maxCookieChunkLength; i < len(value); i += maxCookieChunkLength
emitting value[i:end] with end = min(i+budget, len(value)) under the name
name + "-" + strconv.Itoa(i/budget).  For a positive budget the loop
terminates normally.  For a zero budget, an oversized value makes the
first loop iteration evaluate i/budget with budget = 0, and Go integer
division by zero is a run-time panic, so the call crashes on loop entry;
for a negative budget the expression value[0:budget] before the loop
panics with a slice bounds error.  chunkLoop below carries the extra guard
0 < b required by Lean's termination checker and describes the normal
runs; chunkLoopRun is the image of the source loop for every budget, with
none standing for a Go panic. -/

/-- The continuation-cookie emission loop of dropCookieWithChunks, for a
positive budget b, starting at byte index i. -/
def chunkLoop {α : Type} (b : Nat) (name : String) (v : List α) (i : Nat) :
    List (String × List α) :=
  if h : i < v.length ∧ 0 < b then
    let e := min (i + b) v.length
    (name ++ "-" ++ toString (i / b), (v.drop i).take (e - i)) ::
      chunkLoop b name v (i + b)
  else
    []
termination_by v.length - i
decreasing_by omega

/-- Shallow embedding of dropCookieWithChunks from cookies.go: the list of
(cookie name, payload bytes) pairs emitted for one logical value, in
emission order.  All cookies share the host, lifetime and attribute policy,
so these are omitted here.  Faithful to the source for every positive
budget; for budget at most zero and an oversized value the source panics
(see dropCookieWithChunksRun). -/
def dropCookieWithChunks {α : Type} (b : Int) (name : String) (v : List α) :
    List (String × List α) :=
  if (v.length : Int) ≤ b then
    [(name, v)]
  else
    (name, v.take b.toNat) :: chunkLoop b.toNat name v b.toNat

/-- Image of the source loop for every budget, none standing for a Go
run-time panic: when the loop body is entered with a zero budget, the name
computation strconv.Itoa(i / budget) divides by zero and Go panics, so the
loop aborts on its first iteration. -/
def chunkLoopRun {α : Type} (b : Nat) (name : String) (v : List α)
    (i : Nat) : Option (List (String × List α)) :=
  if hi : i < v.length then
    if hb : b = 0 then none
    else
      let e := min (i + b) v.length
      match chunkLoopRun b name v (i + b) with
      | none => none
      | some rest =>
          some ((name ++ "-" ++ toString (i / b), (v.drop i).take (e - i)) :: rest)
  else some []
termination_by v.length - i
decreasing_by omega

/-- dropCookieWithChunks with Go run semantics.  A none result is a Go
run-time panic: for a negative budget the expression value[0:budget]
before the loop panics with a slice bounds error; for a zero budget and an
oversized value the first loop iteration panics with an integer division
by zero. -/
def dropCookieWithChunksRun {α : Type} (b : Int) (name : String)
    (v : List α) : Option (List (String × List α)) :=
  if (v.length : Int) ≤ b then some [(name, v)]
  else if b < 0 then none
  else
    match chunkLoopRun b.toNat name v b.toNat with
    | none => none
    | some rest => some ((name, v.take b.toNat) :: rest)

/-- Taking up to the length of the list is the same as taking everything
requested. -/
theorem take_min_length {α : Type} (l : List α) (n : Nat) :
    l.take (min n l.length) = l.take n := by
  rcases Nat.le_total n l.length with h | h
  · rw [Nat.min_eq_left h]
  · rw [Nat.min_eq_right h, List.take_of_length_le h, List.take_of_length_le (Nat.le_refl _)]

/-- Concatenating the payloads emitted from index i onward recovers the
tail of the value from byte i. -/
theorem chunkLoop_join {α : Type} (b : Nat) (hb : 0 < b) (name : String)
    (v : List α) (i : Nat) :
    ((chunkLoop b name v i).map Prod.snd).flatten = v.drop i := by
  rw [chunkLoop]
  by_cases h : i < v.length ∧ 0 < b
  · rw [dif_pos h]
    dsimp only
    simp only [List.map_cons, List.flatten_cons]
    rw [chunkLoop_join b hb name v (i + b)]
    have he : min (i + b) v.length - i = min b (v.length - i) := by omega
    have hlen : (v.drop i).length = v.length - i := List.length_drop i v
    rw [he, ← hlen, take_min_length]
    rw [← List.drop_drop, List.take_append_drop]
  · rw [dif_neg h]
    have : v.length ≤ i := by
      rcases Nat.lt_or_ge i v.length with h2 | h2
      · exact absurd ⟨h2, hb⟩ h
      · exact h2
    simp [List.drop_of_length_le this]
termination_by v.length - i
decreasing_by omega

/-- The chunk emission loop started at stride index m produces exactly the
continuation cookies m, m+1, ..., (len-1)/b, each carrying the b-byte slice
at its stride offset. -/
theorem chunkLoop_eq_range {α : Type} (b : Nat) (hb : 0 < b) (name : String)
    (v : List α) (m : Nat) (hm : 1 ≤ m) :
    chunkLoop b name v (m * b) =
      (List.range' m ((v.length - 1) / b + 1 - m)).map
        (fun k => (name ++ "-" ++ toString k, (v.drop (k * b)).take b)) := by
  rw [chunkLoop]
  by_cases h : m * b < v.length ∧ 0 < b
  · rw [dif_pos h]
    dsimp only
    have hlt : m * b < v.length := h.1
    have hcount : (v.length - 1) / b + 1 - m = ((v.length - 1) / b + 1 - (m + 1)) + 1 := by
      have : m ≤ (v.length - 1) / b := by
        rw [Nat.le_div_iff_mul_le hb]
        omega
      omega
    rw [hcount, List.range'_succ, List.map_cons]
    have hdiv : m * b / b = m := Nat.mul_div_cancel m hb
    have hstep : m * b + b = (m + 1) * b := by ring
    have htake : (v.drop (m * b)).take (min (m * b + b) v.length - (m * b))
        = (v.drop (m * b)).take b := by
      have he : min (m * b + b) v.length - m * b = min b (v.length - m * b) := by omega
      have hlen : (v.drop (m * b)).length = v.length - m * b := List.length_drop _ v
      rw [he, ← hlen, take_min_length]
    rw [htake, hdiv, hstep,
      chunkLoop_eq_range b hb name v (m + 1) (Nat.le_succ_of_le hm)]
  · rw [dif_neg h]
    have hge : v.length ≤ m * b := by
      rcases Nat.lt_or_ge (m * b) v.length with h2 | h2
      · exact absurd ⟨h2, hb⟩ h
      · exact h2
    have hmb : 1 * b ≤ m * b := Nat.mul_le_mul_right b hm
    rw [Nat.one_mul] at hmb
    have : (v.length - 1) / b + 1 - m = 0 := by
      have : (v.length - 1) / b < m := by
        rw [Nat.div_lt_iff_lt_mul hb]
        omega
      omega
    rw [this]
    simp
termination_by v.length - m * b
decreasing_by
  rw [Nat.succ_mul]
  omega

/-- C1: for every positive chunk budget b, a value short enough for the
budget is emitted as a single cookie carrying the whole value; an
oversized value is emitted as the base cookie with the first b bytes
followed by the continuation cookies name-1, name-2, ..., where the k-th
continuation carries the bytes from k*b to min((k+1)*b, len); the
concatenation of all emitted payloads in order reproduces the value; and
every chunk before the last stride is exactly b bytes long. -/
theorem dropCookieWithChunks_spec {α : Type} (b : Int) (hb : 0 < b)
    (name : String) (v : List α) :
    ((v.length : Int) ≤ b → dropCookieWithChunks b name v = [(name, v)])
  ∧ (b < (v.length : Int) →
      dropCookieWithChunks b name v =
        (name, v.take b.toNat) ::
          (List.range' 1 ((v.length - 1) / b.toNat)).map
            (fun k => (name ++ "-" ++ toString k, (v.drop (k * b.toNat)).take b.toNat)))
  ∧ (((dropCookieWithChunks b name v).map Prod.snd).flatten = v)
  ∧ (b < (v.length : Int) →
      ∀ k : Nat, k < (v.length - 1) / b.toNat →
        ((v.drop (k * b.toNat)).take b.toNat).length = b.toNat) := by
  have hbn : 0 < b.toNat := by omega
  refine ⟨fun hle => ?_, fun hlt => ?_, ?_, fun hlt k hk => ?_⟩
  · rw [dropCookieWithChunks, if_pos hle]
  · have hloop := chunkLoop_eq_range b.toNat hbn name v 1 (Nat.le_refl 1)
    rw [Nat.one_mul] at hloop
    rw [dropCookieWithChunks, if_neg (by omega), hloop]
    simp
  · rw [dropCookieWithChunks]
    by_cases hle : (v.length : Int) ≤ b
    · rw [if_pos hle]; simp
    · rw [if_neg hle]
      simp only [List.map_cons, List.flatten_cons]
      rw [chunkLoop_join b.toNat hbn name v b.toNat, List.take_append_drop]
  · have hkb : (k + 1) * b.toNat ≤ v.length - 1 := by
      have : k + 1 ≤ (v.length - 1) / b.toNat := hk
      rw [Nat.le_div_iff_mul_le hbn] at this
      exact this
    have hvlen : b.toNat < (v.length : Nat) := by omega
    rw [List.length_take, List.length_drop]
    have : (k + 1) * b.toNat = k * b.toNat + b.toNat := by ring
    omega

/-- Witness for C1: budget 3 splits an 8-byte value into a base cookie and
two continuation cookies whose payloads concatenate back to the value. -/
theorem dropCookieWithChunks_spec_witness :
    dropCookieWithChunks (3 : Int) "kc" "abcdefgh".data =
      [("kc", "abc".data), ("kc-1", "def".data), ("kc-2", "gh".data)] :=
  ((dropCookieWithChunks_spec 3 (by decide) "kc" "abcdefgh".data).2.1
    (by decide)).trans (by decide)

/-! ## Divided cookie clearing (cookies.go, clearDividedCookies)

The Go loop is
  for i := 1; i < len(req.Cookies()); i++ {
    if _, err := req.Cookie(name + "-" + strconv.Itoa(i)); err != nil { break }
    drop clearing cookie for name + "-" + strconv.Itoa(i)
  }
so it walks contiguous continuation indices starting at 1, stops at the
first index missing from the request, and is additionally capped by the
total number of cookies on the request.  Requests are modelled by the list
of their cookie names. -/

/-- The continuation-clearing loop of clearDividedCookies, returning the
names of the clearing cookies emitted from index i on. -/
def clearDividedLoop (cookies : List String) (name : String) (i : Nat) :
    List String :=
  if h : i < cookies.length then
    if (name ++ "-" ++ toString i) ∈ cookies then
      (name ++ "-" ++ toString i) :: clearDividedLoop cookies name (i + 1)
    else []
  else []
termination_by cookies.length - i
decreasing_by omega

/-- Shallow embedding of clearDividedCookies from cookies.go. -/
def clearDividedCookies (cookies : List String) (name : String) : List String :=
  clearDividedLoop cookies name 1

/-- Shallow embedding of clearAccessTokenCookie from cookies.go: the base
cookie is always cleared (immediate-expiry drop), then the divided cookies
observed on the request.  The name parameter stands for the configured
access cookie name; clearRefreshTokenCookie and clearStateCookie are the
same function at their respective configured names. -/
def clearAccessTokenCookie (cookies : List String) (name : String) :
    List String :=
  name :: clearDividedCookies cookies name

/-- The clearing loop from index i emits the names of a contiguous run of
continuation indices present on the request, stops at the first missing
index, and never visits more indices than the request has cookies. -/
theorem clearDividedLoop_spec (cookies : List String) (name : String) (i : Nat) :
    ∃ m, clearDividedLoop cookies name i
          = (List.range' i m).map (fun j => name ++ "-" ++ toString j)
      ∧ (∀ j, i ≤ j → j < i + m → (name ++ "-" ++ toString j) ∈ cookies)
      ∧ (i + m < cookies.length → (name ++ "-" ++ toString (i + m)) ∉ cookies)
      ∧ i + m ≤ max cookies.length i := by
  rw [clearDividedLoop]
  by_cases hi : i < cookies.length
  · rw [dif_pos hi]
    by_cases hmem : (name ++ "-" ++ toString i) ∈ cookies
    · rw [if_pos hmem]
      obtain ⟨m, he, hall, hstop, hcap⟩ := clearDividedLoop_spec cookies name (i + 1)
      refine ⟨m + 1, ?_, ?_, ?_, ?_⟩
      · rw [List.range'_succ, List.map_cons, he]
      · intro j hj1 hj2
        rcases Nat.eq_or_lt_of_le hj1 with he2 | hlt
        · rw [← he2]; exact hmem
        · exact hall j hlt (by omega)
      · intro hlen
        have := hstop (by omega)
        rw [show i + (m + 1) = (i + 1) + m by omega]
        exact this
      · omega
    · rw [if_neg hmem]
      refine ⟨0, by simp, ?_, ?_, by omega⟩
      · intro j hj1 hj2
        omega
      · intro hlen
        rw [Nat.add_zero]
        exact hmem
  · rw [dif_neg hi]
    refine ⟨0, by simp, ?_, ?_, by omega⟩
    · intro j hj1 hj2
      omega
    · intro hlen
      omega
termination_by cookies.length - i
decreasing_by omega

/-- C2 (amended): clearing a divided cookie set always clears the base
cookie, and clears the continuation cookies name-1 .. name-m of a
contiguous run present on the request, where the run either stops at the
first missing index or at the defensive cap given by the total number of
cookies on the request, whichever comes first; in particular a request
carrying base, base-1, base-3 (gap at base-2) yields clearings for base
and base-1 only. -/
theorem clearDividedCookies_run (cookies : List String) (name : String) :
    (∃ m, clearAccessTokenCookie cookies name
          = name :: (List.range' 1 m).map (fun j => name ++ "-" ++ toString j)
      ∧ (∀ j, 1 ≤ j → j ≤ m → (name ++ "-" ++ toString j) ∈ cookies)
      ∧ (1 + m < cookies.length → (name ++ "-" ++ toString (1 + m)) ∉ cookies)
      ∧ m < max cookies.length 1)
  ∧ clearAccessTokenCookie ["kc-access", "kc-access-1", "kc-access-3"] "kc-access"
      = ["kc-access", "kc-access-1"] := by
  constructor
  · obtain ⟨m, he, hall, hstop, hcap⟩ := clearDividedLoop_spec cookies name 1
    refine ⟨m, ?_, ?_, hstop, by omega⟩
    · rw [clearAccessTokenCookie, clearDividedCookies, he]
    · intro j h1 h2
      exact hall j h1 (by omega)
  · rw [clearAccessTokenCookie, clearDividedCookies, clearDividedLoop,
      dif_pos (by decide), if_pos (by decide), clearDividedLoop,
      dif_pos (by decide), if_neg (by decide)]
    decide

/-- Counterexample for C2 as stated: a request carrying only the single
continuation cookie kc-access-1 has a maximal contiguous continuation run
of length one, yet the clearing loop, capped by the total cookie count of
the request, emits no continuation clearing at all. -/
theorem clearDividedCookies_cap_counterexample :
    ("kc-access" ++ "-" ++ toString 1) ∈ ["kc-access-1"]
  ∧ clearDividedCookies ["kc-access-1"] "kc-access" = [] := by
  constructor
  · decide
  · rw [clearDividedCookies, clearDividedLoop, dif_neg (by decide)]

/-! ## Run behaviour of the codec operations -/

/-- With a zero budget the source loop panics on entry whenever the value
extends past the start index: the first iteration divides by zero. -/
theorem chunkLoopRun_zero_budget {α : Type} (name : String) (v : List α)
    (i : Nat) (h : i < v.length) : chunkLoopRun 0 name v i = none := by
  rw [chunkLoopRun, dif_pos h, dif_pos rfl]

/-- With a positive budget the run completes normally, with the chunks of
the total model. -/
theorem chunkLoopRun_pos {α : Type} (b : Nat) (hb : 0 < b) (name : String)
    (v : List α) (i : Nat) :
    chunkLoopRun b name v i = some (chunkLoop b name v i) := by
  by_cases hi : i < v.length
  · rw [chunkLoop, dif_pos ⟨hi, hb⟩]
    rw [chunkLoopRun, dif_pos hi, dif_neg (by omega),
      chunkLoopRun_pos b hb name v (i + b)]
  · rw [chunkLoopRun, dif_neg hi, chunkLoop, dif_neg (by tauto)]
termination_by v.length - i
decreasing_by omega

/-- Configuration with no attribute overhead beyond the path: empty domain,
session cookies, no HttpOnly, no Secure, no SameSite. -/
def zeroBudgetConfig : Config :=
  { cookieDomain := ""
    httpOnlyCookie := false
    secureCookie := false
    sameSiteCookie := ""
    enableSessionCookies := true }

/-- A 4061-byte cookie name, consuming the entire remaining budget of
zeroBudgetConfig for an empty host. -/
def zeroBudgetName : String := String.mk (List.replicate 4061 'a')

/-- The budget computed for zeroBudgetConfig, an empty host and the
4061-byte cookie name is exactly zero. -/
theorem zeroBudget_chunker : cookieChunker zeroBudgetConfig "" zeroBudgetName = 0 := by
  have hn : zeroBudgetName.length = 4061 := List.length_replicate 4061 'a'
  simp [cookieChunker, zeroBudgetConfig, hostWithoutPort, baseCookieChunkLength,
    cookieMargin, hn]
  decide

/-- Counterexample for C8 as stated: there is a configuration, host and
cookie name whose computed chunk budget is zero, and on it writeValue of
any non-empty value crashes rather than completing: the first loop
iteration divides the index by the zero budget, a Go run-time panic. -/
theorem chunk_write_zero_budget_counterexample :
    cookieChunker zeroBudgetConfig "" zeroBudgetName = 0
  ∧ dropCookieWithChunksRun (cookieChunker zeroBudgetConfig "" zeroBudgetName)
      zeroBudgetName (['x'] : List Char) = none := by
  refine ⟨zeroBudget_chunker, ?_⟩
  rw [zeroBudget_chunker]
  rw [dropCookieWithChunksRun, if_neg (by decide), if_neg (by decide)]
  rw [show (0 : Int).toNat = 0 from rfl]
  rw [chunkLoopRun_zero_budget zeroBudgetName (['x'] : List Char) 0 (by decide)]

/-- C8 (amended): for every positive computed chunk budget, writeValue
completes normally with the result described by dropCookieWithChunks, and
clearValue completes with at most one clearing per request cookie beyond
the base clearing; the original claim fails for non-positive budgets,
where the write panics: an integer division by zero on the first loop
iteration at a zero budget, a slice bounds error at a negative budget. -/
theorem chunk_operations_complete {α : Type} (b : Int) (hb : 0 < b)
    (name : String) (v : List α) (reqCookies : List String) (cname : String) :
    dropCookieWithChunksRun b name v = some (dropCookieWithChunks b name v)
  ∧ (clearAccessTokenCookie reqCookies cname).length ≤ reqCookies.length + 1 := by
  constructor
  · rw [dropCookieWithChunksRun, dropCookieWithChunks]
    by_cases hle : (v.length : Int) ≤ b
    · rw [if_pos hle, if_pos hle]
    · rw [if_neg hle, if_neg hle, if_neg (by omega)]
      rw [chunkLoopRun_pos b.toNat (by omega) name v b.toNat]
  · obtain ⟨m, he, hall, hstop, hcap⟩ := clearDividedLoop_spec reqCookies cname 1
    rw [clearAccessTokenCookie, clearDividedCookies, he]
    simp only [List.length_cons, List.length_map, List.length_range']
    omega

/-- Witness for C8 (amended): with budget 1 the write of a two-byte value
runs to completion and agrees with the total model. -/
theorem chunk_operations_complete_witness :
    dropCookieWithChunksRun (1 : Int) "kc" (['a', 'b'] : List Char)
      = some (dropCookieWithChunks (1 : Int) "kc" (['a', 'b'] : List Char)) :=
  (chunk_operations_complete 1 (by decide) "kc" (['a', 'b'] : List Char) [] "kc").1

/-! ## Forwarding credential renewal (forwarding.go, forwardProxyHandler)

The renewal loop shares a forwardingState record with concurrent signers;
every field mutation happens inside one Lock/Unlock section, so readers
observe the state exactly at iteration boundaries of the model below.  The
identity-provider client (UserCredsToken, parseToken, getRefreshedToken)
is external network code; its outcomes are supplied to each iteration as
an oracle.  Cancellation terminates the loop between iterations and is not
otherwise observable in the shared state, so the model covers the
uncancelled executions.  Tokens are opaque strings; the zero jose.JWT of
the initial state is the empty string. -/

/-- The fields of an oidc.Identity used by the loop. -/
structure OidcIdentity where
  id : String
  email : String
  expiresAt : Int
deriving DecidableEq, Repr

/-- The loop state shared between the renewal task and the signers, from
forwarding.go (type forwardingState).  The identity field is a pointer in
the source, nil until the first successful login. -/
structure ForwardingState where
  token : String
  refresh : String
  identity : Option OidcIdentity
  expiration : Int
  login : Bool
  wait : Bool
deriving DecidableEq, Repr

/-- The state created at forwarding-mode startup: only the login flag is
set, all other fields are Go zero values. -/
def initialForwardingState : ForwardingState :=
  { token := ""
    refresh := ""
    identity := none
    expiration := 0
    login := true
    wait := false }

/-- Outcome of a login attempt: the credentials RPC can fail, the returned
access token can fail to parse, or both steps succeed. -/
inductive LoginOutcome where
  | rpcFailure
  | tokenUnreadable
  | loginOk (token : String) (ident : OidcIdentity) (refreshToken : String)
deriving DecidableEq, Repr

/-- Outcome of a refresh attempt; the flag records whether the failure was
the typed ErrRefreshTokenExpired (the source distinguishes it only in the
log severity). -/
inductive RefreshOutcome where
  | refreshFailure (expired : Bool)
  | refreshOk (token : String) (newRefreshToken : String) (expiration : Int)
deriving DecidableEq, Repr

/-- The network oracle for one loop iteration: what the provider would
answer to a login and to a refresh. -/
structure NetOracle where
  loginResult : LoginOutcome
  refreshResult : RefreshOutcome
deriving DecidableEq, Repr

/-- Externally visible effects of one loop iteration: which network calls
were attempted, whether the fixed 5-second retry backoff was slept, and
whether the expiry-approach wait was slept. -/
structure IterationEffects where
  attemptedLogin : Bool
  attemptedRefresh : Bool
  backoffWait : Bool
  expiryWait : Bool
deriving DecidableEq, Repr

/-- One iteration of the renewal loop of forwardProxyHandler.  The loop
first clears the wait flag, then either logs in (when the login flag is
set), refreshes (when a refresh token is held), or demotes to login
without any network call.  Login failures back off five seconds and
continue; refresh failures set the login flag and continue with no wait;
success paths store the new credential in one lock section and then sleep
until the expiry approaches (the source checks the wait flag through the
cloneState alias, which reads the just-updated state). -/
def stepIteration (s : ForwardingState) (net : NetOracle) :
    ForwardingState × IterationEffects :=
  let s0 := { s with wait := false }
  if s0.login then
    match net.loginResult with
    | .rpcFailure =>
        (s0, { attemptedLogin := true, attemptedRefresh := false,
               backoffWait := true, expiryWait := false })
    | .tokenUnreadable =>
        (s0, { attemptedLogin := true, attemptedRefresh := false,
               backoffWait := true, expiryWait := false })
    | .loginOk tok ident rtok =>
        ({ s0 with token := tok, identity := some ident,
                   expiration := ident.expiresAt, wait := true,
                   login := false, refresh := rtok },
         { attemptedLogin := true, attemptedRefresh := false,
           backoffWait := false, expiryWait := true })
  else if s0.refresh ≠ "" then
    match net.refreshResult with
    | .refreshFailure _ =>
        ({ s0 with login := true },
         { attemptedLogin := false, attemptedRefresh := true,
           backoffWait := false, expiryWait := false })
    | .refreshOk tok newR exp =>
        ({ s0 with token := tok, expiration := exp, wait := true,
                   login := false,
                   refresh := if newR ≠ "" then newR else s0.refresh },
         { attemptedLogin := false, attemptedRefresh := true,
           backoffWait := false, expiryWait := true })
  else
    ({ s0 with wait := false, login := true },
     { attemptedLogin := false, attemptedRefresh := false,
       backoffWait := false, expiryWait := false })

/-- Running the loop through a finite trace of oracle answers. -/
def runTrace (s : ForwardingState) : List NetOracle → ForwardingState
  | [] => s
  | n :: rest => runTrace (stepIteration s n).1 rest

/-- The token stored by an iteration, when it ends in a successful login or
refresh. -/
def storedToken (s : ForwardingState) (net : NetOracle) : Option String :=
  if s.login then
    match net.loginResult with
    | .loginOk tok _ _ => some tok
    | _ => none
  else if s.refresh ≠ "" then
    match net.refreshResult with
    | .refreshOk tok _ _ => some tok
    | _ => none
  else none

/-- The tokens stored by the successful logins and refreshes of a trace, in
order of completion. -/
def successTokens (s : ForwardingState) : List NetOracle → List String
  | [] => []
  | n :: rest =>
      (storedToken s n).toList ++ successTokens (stepIteration s n).1 rest

/-- An iteration changes the token field exactly when it completes a
successful login or refresh, and then to the token of that success. -/
theorem stepIteration_token (s : ForwardingState) (net : NetOracle) :
    (stepIteration s net).1.token = (storedToken s net).getD s.token := by
  rw [stepIteration, storedToken]
  by_cases hl : s.login
  · simp only [hl, if_pos]
    cases net.loginResult <;> simp
  · by_cases hr : s.refresh = ""
    · simp [hl, hr]
    · simp only [hl]
      cases net.refreshResult <;> simp [hr]

/-- Last element of a cons in terms of the tail. -/
theorem getLast?_cons_getD (x : String) (l : List String) (d : String) :
    ((x :: l).getLast?).getD d = (l.getLast?).getD x := by
  induction l with
  | nil => rfl
  | cons y ys ih =>
      rw [List.getLast?_cons_cons]
      cases h : (y :: ys).getLast? with
      | none => exact absurd (List.getLast?_eq_none_iff.mp h) (by simp)
      | some z => rfl

/-- The token held in the shared state after any trace is the token of the
most recent successful login or refresh, or the starting token when the
trace contains no success. -/
theorem runTrace_token (tr : List NetOracle) :
    ∀ s : ForwardingState,
      (runTrace s tr).token = ((successTokens s tr).getLast?).getD s.token := by
  induction tr with
  | nil => intro s; rfl
  | cons n rest ih =>
      intro s
      rw [runTrace, successTokens, ih]
      have htok := stepIteration_token s n
      cases hst : storedToken s n with
      | none =>
          rw [hst, Option.getD_none] at htok
          simp only [hst, Option.toList, List.nil_append]
          rw [htok]
      | some t =>
          rw [hst, Option.getD_some] at htok
          simp only [hst, Option.toList, List.singleton_append]
          rw [htok]
          exact (getLast?_cons_getD t (successTokens (stepIteration s n).1 rest) s.token).symm

/-- C4: in every uncancelled execution of the renewal loop from the startup
state, the token a signer reads from the shared state is exactly the token
stored by the most recent completed successful login or refresh; before
the first success the reader observes only the zero-value (empty) token of
the startup state, never a token that no success produced. -/
theorem reader_token_provenance (tr : List NetOracle) :
    (successTokens initialForwardingState tr = []
        ∧ (runTrace initialForwardingState tr).token = "")
  ∨ (∃ t, (successTokens initialForwardingState tr).getLast? = some t
        ∧ (runTrace initialForwardingState tr).token = t) := by
  have h := runTrace_token tr initialForwardingState
  cases hs : (successTokens initialForwardingState tr).getLast? with
  | none =>
      left
      rw [hs] at h
      exact ⟨List.getLast?_eq_none_iff.mp hs, h⟩
  | some t =>
      right
      rw [hs] at h
      exact ⟨t, rfl, h⟩

/-- C3: in the Active state (login flag clear), every refresh failure,
whatever its cause, sets the login flag and returns to the top of the loop
with neither the retry backoff nor the expiry wait; and when no refresh
token is held, the login flag is set without attempting any network call
and without waiting. -/
theorem refresh_failure_transition (s : ForwardingState) (net : NetOracle)
    (hl : s.login = false) :
    (∀ e : Bool, s.refresh ≠ "" → net.refreshResult = .refreshFailure e →
        (stepIteration s net).1.login = true
      ∧ (stepIteration s net).2.backoffWait = false
      ∧ (stepIteration s net).2.expiryWait = false)
  ∧ (s.refresh = "" →
        (stepIteration s net).1.login = true
      ∧ (stepIteration s net).2.attemptedLogin = false
      ∧ (stepIteration s net).2.attemptedRefresh = false
      ∧ (stepIteration s net).2.backoffWait = false
      ∧ (stepIteration s net).2.expiryWait = false) := by
  constructor
  · intro e hr hres
    rw [stepIteration]
    simp [hl, hr, hres]
  · intro hr
    rw [stepIteration]
    simp [hl, hr]

/-- Witness for C3: a concrete Active state whose refresh fails with the
expired-refresh-token error transitions to login with no wait, and the
same state without a refresh token demotes to login without a network
call. -/
theorem refresh_failure_transition_witness :
    ((stepIteration
        { token := "t0", refresh := "r0", identity := none, expiration := 9,
          login := false, wait := true }
        { loginResult := .rpcFailure, refreshResult := .refreshFailure true }).1.login = true
      ∧ (stepIteration
        { token := "t0", refresh := "r0", identity := none, expiration := 9,
          login := false, wait := true }
        { loginResult := .rpcFailure, refreshResult := .refreshFailure true }).2.backoffWait = false
      ∧ (stepIteration
        { token := "t0", refresh := "r0", identity := none, expiration := 9,
          login := false, wait := true }
        { loginResult := .rpcFailure, refreshResult := .refreshFailure true }).2.expiryWait = false)
  ∧ (stepIteration
        { token := "t0", refresh := "", identity := none, expiration := 9,
          login := false, wait := true }
        { loginResult := .rpcFailure, refreshResult := .refreshFailure true }).2.attemptedRefresh
      = false := by
  constructor
  · exact (refresh_failure_transition _ _ rfl).1 true (by decide) rfl
  · exact ((refresh_failure_transition _ _ rfl).2 rfl).2.2.1

/-- Every iteration leaves the state with the wait flag clear whenever the
login flag is set: failure and demotion branches clear the wait flag, and
success branches clear the login flag. -/
theorem stepIteration_login_wait (s : ForwardingState) (net : NetOracle) :
    (stepIteration s net).1.login = true → (stepIteration s net).1.wait = false := by
  rw [stepIteration]
  by_cases hl : s.login
  · simp only [hl, if_pos]
    cases net.loginResult <;> simp
  · by_cases hr : s.refresh = ""
    · simp [hl, hr]
    · simp only [hl]
      cases net.refreshResult <;> simp [hr]

/-- In every state the loop can reach from startup, the wait flag is clear
whenever the login flag is set. -/
theorem runTrace_login_wait (tr : List NetOracle) :
    (runTrace initialForwardingState tr).login = true →
      (runTrace initialForwardingState tr).wait = false := by
  suffices h : ∀ (tr : List NetOracle) (s : ForwardingState),
      (s.login = true → s.wait = false) →
      ((runTrace s tr).login = true → (runTrace s tr).wait = false) from
    h tr initialForwardingState (fun _ => rfl)
  intro tr
  induction tr with
  | nil => intro s hs; exact hs
  | cons n rest ih =>
      intro s hs
      exact ih (stepIteration s n).1 (stepIteration_login_wait s n)

/-- C10: on every state the loop can reach from startup, a failed login
attempt or a failed parse of a fresh access token leaves the shared state
completely unchanged (the task only backs off and retries), and a failed
refresh attempt changes only the flags: the token, refresh token, identity
and expiry fields keep their previous values, with the login flag set (the
wait flag is cleared at the top of every iteration before the refresh is
attempted, whatever its outcome). -/
theorem failure_frame_conditions (tr : List NetOracle) (net : NetOracle) :
    ((runTrace initialForwardingState tr).login = true →
      (net.loginResult = .rpcFailure ∨ net.loginResult = .tokenUnreadable) →
      (stepIteration (runTrace initialForwardingState tr) net).1
        = runTrace initialForwardingState tr)
  ∧ ((runTrace initialForwardingState tr).login = false →
      (runTrace initialForwardingState tr).refresh ≠ "" →
      ∀ e : Bool, net.refreshResult = .refreshFailure e →
        (stepIteration (runTrace initialForwardingState tr) net).1
          = { runTrace initialForwardingState tr with login := true, wait := false }
      ∧ (stepIteration (runTrace initialForwardingState tr) net).1.token
          = (runTrace initialForwardingState tr).token
      ∧ (stepIteration (runTrace initialForwardingState tr) net).1.refresh
          = (runTrace initialForwardingState tr).refresh
      ∧ (stepIteration (runTrace initialForwardingState tr) net).1.identity
          = (runTrace initialForwardingState tr).identity
      ∧ (stepIteration (runTrace initialForwardingState tr) net).1.expiration
          = (runTrace initialForwardingState tr).expiration
      ∧ (stepIteration (runTrace initialForwardingState tr) net).1.login = true) := by
  constructor
  · intro hl hfail
    cases hstate : runTrace initialForwardingState tr with
    | mk tok re idn exp lg wa =>
        have hw := runTrace_login_wait tr hl
        rw [hstate] at hl hw
        rw [stepIteration]
        rcases hfail with hf | hf <;>
          · simp only [hf]
            simp_all
  · intro hl hr e hres
    rw [stepIteration]
    simp [hl, hr, hres]

/-- Witness for C10: from the startup state a failed login mutates nothing,
and after one successful login a failed refresh keeps the stored token. -/
theorem failure_frame_conditions_witness :
    (stepIteration initialForwardingState
        { loginResult := .rpcFailure, refreshResult := .refreshFailure false }).1
      = initialForwardingState
  ∧ (stepIteration
        (runTrace initialForwardingState
          [{ loginResult := .loginOk "tok1" { id := "s1", email := "e", expiresAt := 60 } "rt1",
             refreshResult := .refreshFailure false }])
        { loginResult := .rpcFailure, refreshResult := .refreshFailure true }).1.token
      = (runTrace initialForwardingState
          [{ loginResult := .loginOk "tok1" { id := "s1", email := "e", expiresAt := 60 } "rt1",
             refreshResult := .refreshFailure false }]).token := by
  constructor
  · exact (failure_frame_conditions []
      { loginResult := .rpcFailure, refreshResult := .refreshFailure false }).1
      rfl (Or.inl rfl)
  · exact ((failure_frame_conditions
      [{ loginResult := .loginOk "tok1" { id := "s1", email := "e", expiresAt := 60 } "rt1",
         refreshResult := .refreshFailure false }]
      { loginResult := .rpcFailure, refreshResult := .refreshFailure true }).2
      (by decide) (by decide) true rfl).2.1

/-! ## Identity extraction (forwarding.go, extractIdentity)

Claims are the decoded JSON payload of a validated token, modelled as an
association list of claim keys to JSON values (Go map[string]interface).
The StringClaim, StringsClaim and TimeClaim accessors and
oidc.IdentityFromClaims come from the external go-oidc claims library; the
spec describes their contract (a claim can be missing, present in the
requested shape, or present in another shape, which is an accessor error).
The step from a jose.JWT to its claim map (token.Claims) is the external
wire-format decoder, so the embedding starts from the claim map. -/

/-- A decoded JSON claim value. -/
inductive JsonValue where
  | str (s : String)
  | num (n : Int)
  | boolean (b : Bool)
  | arr (xs : List JsonValue)
  | obj (fields : List (String × JsonValue))
  | null

/-- Claim keys consumed by the extractor; the repository defines these
constants outside the excerpted sources, with the standard keycloak
values named by the spec (preferred-name, audience, realm-access,
resource-access roles, groups). -/
def claimPreferredName : String := "preferred_username"

/-- The audience claim key. -/
def claimAudience : String := "aud"

/-- The realm access claim key. -/
def claimRealmAccess : String := "realm_access"

/-- The resource access claim key. -/
def claimResourceAccess : String := "resource_access"

/-- The roles key inside realm-access and resource-access objects. -/
def claimResourceRoles : String := "roles"

/-- The groups claim key. -/
def claimGroups : String := "groups"

/-- A claim map: the decoded payload of a validated token. -/
def Claims : Type := List (String × JsonValue)

/-- Result of a typed claim accessor, mirroring the Go (value, found,
error) triple: absent claim, claim found in the requested shape, or claim
present in another shape (an accessor error). -/
inductive ClaimResult (α : Type) where
  | missing
  | found (a : α)
  | shapeError
deriving DecidableEq, Repr

/-- The jose claims StringClaim accessor: a present claim must be a JSON
string, any other shape is an accessor error. -/
def stringClaim (c : Claims) (k : String) : ClaimResult String :=
  match List.lookup k c with
  | none => .missing
  | some (.str s) => .found s
  | some _ => .shapeError

/-- Reading a JSON array as a list of strings; any non-string element
fails. -/
def asStringList : List JsonValue → Option (List String)
  | [] => some []
  | .str s :: rest => (asStringList rest).map (fun l => s :: l)
  | _ :: _ => none

/-- The jose claims StringsClaim accessor: a present claim must be a JSON
array of strings. -/
def stringsClaim (c : Claims) (k : String) : ClaimResult (List String) :=
  match List.lookup k c with
  | none => .missing
  | some (.arr xs) =>
      match asStringList xs with
      | some l => .found l
      | none => .shapeError
  | some _ => .shapeError

/-- The jose claims TimeClaim accessor: a present claim must be numeric. -/
def timeClaim (c : Claims) (k : String) : ClaimResult Int :=
  match List.lookup k c with
  | none => .missing
  | some (.num n) => .found n
  | some _ => .shapeError

/-- The oidc.IdentityFromClaims contract: the subject claim is required,
the email claim is optional but must be well shaped when present, the
expiry claim is optional but must be numeric when present (absent expiry
leaves the Go zero time). -/
def identityFromClaims (c : Claims) : Except String OidcIdentity :=
  match stringClaim c "sub" with
  | .shapeError => .error "unable to parse claim as string: sub"
  | .missing => .error "missing required claim: sub"
  | .found sub =>
    match stringClaim c "email" with
    | .shapeError => .error "unable to parse claim as string: email"
    | other =>
      let email := match other with
        | .found e => e
        | _ => ""
      match timeClaim c "exp" with
      | .shapeError => .error "unable to parse claim as time: exp"
      | .missing => .ok { id := sub, email := email, expiresAt := 0 }
      | .found e => .ok { id := sub, email := email, expiresAt := e }

/-- The Go fmt %s rendering used for role entries.  Role lists are string
lists in practice; composite values get an abbreviated rendering, on which
nothing below depends. -/
def formatValue : JsonValue → String
  | .str s => s
  | .num n => toString n
  | .boolean b => toString b
  | .null => "<nil>"
  | .arr _ => "[...]"
  | .obj _ => "map[...]"

/-- The realm-roles step of extractIdentity: look under the realm-access
claim object's roles list; an invalid claim shape is ignored and yields no
roles. -/
def realmRoles (claims : Claims) : List String :=
  match List.lookup claimRealmAccess claims with
  | some (.obj fields) =>
      match List.lookup claimResourceRoles fields with
      | some (.arr roles) => roles.map formatValue
      | _ => []
  | _ => []

/-- The client-roles step of extractIdentity: for every entry of the
resource-access claim object carrying a roles list, append each role as
client:role; malformed shapes contribute nothing.  The Go map iteration
order is arbitrary; the model uses the field order of the object. -/
def resourceRoles (claims : Claims) : List String :=
  match List.lookup claimResourceAccess claims with
  | some (.obj accesses) =>
      accesses.foldr
        (fun (p : String × JsonValue) acc =>
          (match p.2 with
           | .obj scopes =>
               match List.lookup claimResourceRoles scopes with
               | some (.arr rolesForKey) =>
                   rolesForKey.map (fun r => p.1 ++ ":" ++ formatValue r)
               | _ => []
           | _ => []) ++ acc)
        []
  | _ => []

/-- The typed failures of extractIdentity: a failure of the preliminary
identity construction, the typed ErrNoTokenAudience from errors.go, or the
propagated accessor error of the groups claim. -/
inductive ExtractError where
  | identityFailure (msg : String)
  | noTokenAudience
  | groupsFailure
deriving DecidableEq, Repr

/-- The user context record built by extractIdentity (the fields derived
from the claims; the raw token and claim map of the source record carry no
further information here). -/
structure UserContext where
  audiences : List String
  email : String
  expiresAt : Int
  groups : List String
  id : String
  name : String
  preferredName : String
  roles : List String
deriving DecidableEq, Repr

/-- The audience-resolution block of extractIdentity: accept a singular
string claim, otherwise a string-list claim, otherwise fail with the typed
ErrNoTokenAudience. -/
def resolveAudiences (claims : Claims) : Except ExtractError (List String) :=
  match stringClaim claims claimAudience with
  | .found a => .ok [a]
  | _ =>
      match stringsClaim claims claimAudience with
      | .found l => .ok l
      | _ => .error .noTokenAudience

/-- Shallow embedding of extractIdentity from forwarding.go, starting from
the decoded claim map of the validated token. -/
def extractIdentity (claims : Claims) : Except ExtractError UserContext :=
  match identityFromClaims claims with
  | .error m => .error (.identityFailure m)
  | .ok identity =>
    let preferredName :=
      match stringClaim claims claimPreferredName with
      | .found n => n
      | _ => identity.email
    match resolveAudiences claims with
    | .error e => .error e
    | .ok audiences =>
      let roleList := realmRoles claims ++ resourceRoles claims
      match stringsClaim claims claimGroups with
      | .shapeError => .error .groupsFailure
      | .found gs =>
          .ok { audiences := audiences, email := identity.email,
                expiresAt := identity.expiresAt, groups := gs,
                id := identity.id, name := preferredName,
                preferredName := preferredName, roles := roleList }
      | .missing =>
          .ok { audiences := audiences, email := identity.email,
                expiresAt := identity.expiresAt, groups := [],
                id := identity.id, name := preferredName,
                preferredName := preferredName, roles := roleList }

/-- Whether the claim map carries an audience claim in singular-string or
string-list form. -/
def audiencePresent (claims : Claims) : Bool :=
  (match stringClaim claims claimAudience with
   | .found _ => true
   | _ => false) ||
  (match stringsClaim claims claimAudience with
   | .found _ => true
   | _ => false)

/-- The audience block fails with the typed error exactly when the claim
map carries no audience in either accepted form. -/
theorem resolveAudiences_error_iff (claims : Claims) :
    resolveAudiences claims = .error .noTokenAudience ↔ audiencePresent claims = false := by
  rw [resolveAudiences, audiencePresent]
  cases stringClaim claims claimAudience <;>
    cases stringsClaim claims claimAudience <;> simp

/-- The user context extractIdentity builds on success, as a function of
the resolved audiences and groups. -/
def builtContext (claims : Claims) (ident : OidcIdentity)
    (audiences groups : List String) : UserContext :=
  { audiences := audiences
    email := ident.email
    expiresAt := ident.expiresAt
    groups := groups
    id := ident.id
    name :=
      match stringClaim claims claimPreferredName with
      | .found n => n
      | _ => ident.email
    preferredName :=
      match stringClaim claims claimPreferredName with
      | .found n => n
      | _ => ident.email
    roles := realmRoles claims ++ resourceRoles claims }

/-- The audience block either fails with the typed error (no audience in
either form) or succeeds (audience present in some form). -/
theorem resolveAudiences_cases (claims : Claims) :
    (audiencePresent claims = false
        ∧ resolveAudiences claims = .error .noTokenAudience)
  ∨ (audiencePresent claims = true ∧ ∃ l, resolveAudiences claims = .ok l) := by
  rw [resolveAudiences, audiencePresent]
  cases stringClaim claims claimAudience <;>
    cases stringsClaim claims claimAudience <;> simp

/-- C9: when the preliminary identity construction succeeds, extraction
fails with the typed no-audience error exactly when the claims carry an
audience claim in neither singular-string nor string-list form; a shape
error on the groups claim aborts extraction with the propagated groups
failure; malformed realm-access shapes silently contribute no roles; and
whenever the groups claim is well shaped, extraction succeeds regardless
of the shapes of the role claims, with the roles given by the tolerant
realm and resource role readers. -/
theorem extractIdentity_error_semantics (claims : Claims) :
    (∀ ident, identityFromClaims claims = .ok ident →
       ((extractIdentity claims = .error .noTokenAudience)
          ↔ audiencePresent claims = false))
  ∧ (∀ ident, identityFromClaims claims = .ok ident →
       audiencePresent claims = true →
       stringsClaim claims claimGroups = .shapeError →
       extractIdentity claims = .error .groupsFailure)
  ∧ ((∀ fields, List.lookup claimRealmAccess claims ≠ some (.obj fields)) →
       realmRoles claims = [])
  ∧ (∀ fields, List.lookup claimRealmAccess claims = some (.obj fields) →
       (∀ xs, List.lookup claimResourceRoles fields ≠ some (.arr xs)) →
       realmRoles claims = [])
  ∧ (∀ ident, identityFromClaims claims = .ok ident →
       audiencePresent claims = true →
       stringsClaim claims claimGroups ≠ .shapeError →
       ∃ ctx, extractIdentity claims = .ok ctx
         ∧ ctx.roles = realmRoles claims ++ resourceRoles claims) := by
  refine ⟨?_, ?_, ?_, ?_, ?_⟩
  · intro ident h
    rcases resolveAudiences_cases claims with ⟨hp, hr⟩ | ⟨hp, l, hr⟩
    · simp [extractIdentity, h, hr, hp]
    · simp only [extractIdentity, h, hr, hp]
      cases hg : stringsClaim claims claimGroups <;> simp
  · intro ident h hp hg
    rcases resolveAudiences_cases claims with ⟨hp2, hr⟩ | ⟨hp2, l, hr⟩
    · simp_all
    · simp [extractIdentity, h, hr, hg]
  · intro hno
    cases hl : List.lookup claimRealmAccess claims with
    | none => simp [realmRoles, hl]
    | some v =>
        cases v
        case obj fields => exact absurd hl (hno _)
        all_goals simp [realmRoles, hl]
  · intro fields hl hno
    cases hl2 : List.lookup claimResourceRoles fields with
    | none => simp [realmRoles, hl, hl2]
    | some v =>
        cases v
        case arr xs => exact absurd hl2 (hno _)
        all_goals simp [realmRoles, hl, hl2]
  · intro ident h hp hg
    rcases resolveAudiences_cases claims with ⟨hp2, hr⟩ | ⟨hp2, l, hr⟩
    · simp_all
    · cases hgc : stringsClaim claims claimGroups with
      | shapeError => exact absurd hgc hg
      | found gs =>
          exact ⟨builtContext claims ident l gs,
            by simp [extractIdentity, h, hr, hgc, builtContext], rfl⟩
      | missing =>
          exact ⟨builtContext claims ident l [],
            by simp [extractIdentity, h, hr, hgc, builtContext], rfl⟩

/-- Claim map carrying a subject but no audience claim in either form. -/
def noAudienceClaims : Claims :=
  [("sub", JsonValue.str "user-1")]

/-- Witness for C9: on a claim map whose preliminary identity succeeds but
which carries no audience claim, extraction fails with the typed
no-audience error. -/
theorem extractIdentity_error_semantics_witness :
    extractIdentity noAudienceClaims = .error .noTokenAudience :=
  ((extractIdentity_error_semantics noAudienceClaims).1
    { id := "user-1", email := "", expiresAt := 0 } rfl).mpr rfl

/-- Witness for C2 (amended): the concrete first-gap example, obtained from
the general run description. -/
theorem clearDividedCookies_run_witness :
    clearAccessTokenCookie ["kc-access", "kc-access-1", "kc-access-3"] "kc-access"
      = ["kc-access", "kc-access-1"] :=
  (clearDividedCookies_run [] "unused").2
